import Mathlib

/-!
Verification of the paper_reader repository's core: the Collection Store
(src/paper_store/store.py) and the Insight Extraction Pipeline
(src/insight_extractor/extractor.py), over the data model of src/models.py.

Modelling conventions:
* Python strings are Lean `String`s (sequences of unicode scalar values);
  `len`, slicing, `in`, `find`, `strip`, `lower` are modelled at the
  `List Char` level.  `str.lower()` is modelled character-wise with
  `Char.toLower` (exact for the ASCII data involved here).
* The filesystem directory backing a `PaperStore` is a finite association
  list from file names to file contents.  A file's content is either a
  parsed JSON document (`json.dump` followed by `json.load` is the identity
  on the JSON values the store writes: strings, string lists, null and
  nested objects of those) or unparseable bytes (`FileContent.corrupt`),
  which `json.load` rejects.
* Fallible Python code (raising / catching exceptions) becomes `Except` /
  `Option`.
* Python dataclasses do not check the types of constructor arguments at
  runtime; the embedding decodes JSON into the declared field types.  In
  particular `Literal["foundational", "incremental"]` is *not* enforced at
  runtime, so `classification` (and `status`) are embedded as plain
  `String`s, which is the faithful runtime behaviour.
-/

namespace PaperReader

/-- JSON values, as produced by Python's `json.load` / consumed by
`json.dump`.  Numbers keep their source token (their numeric value is
irrelevant to every claim); objects keep their key/value pairs in order,
with `dictGet` below implementing Python's dict semantics (for a duplicated
key the last occurrence wins, as in `json.loads`). -/
inductive JsonValue where
  | null
  | bool (b : Bool)
  | num (tok : String)
  | str (s : String)
  | arr (items : List JsonValue)
  | obj (fields : List (String × JsonValue))

/-- `models.PaperInsights` (src/models.py).  Field names follow the source.
`classification` is annotated `Literal["foundational","incremental"]` in the
source but dataclasses do not enforce annotations at runtime, so it is a
plain `String` here. -/
structure PaperInsights where
  problem : String
  method : String
  key_results : String
  contributions : List String
  related_work : List String
  future_directions : List String
  classification : String
deriving DecidableEq

/-- `models.Paper` (src/models.py).  `status` is a plain `String` for the
same reason as `classification`; `notes` defaults to `""` as in the source. -/
structure Paper where
  id : String
  title : String
  authors : List String
  url : String
  pdf_path : Option String
  added_date : String
  interests : List String
  insights : PaperInsights
  status : String
  notes : String := ""
deriving DecidableEq

/-- Python dict lookup on the ordered field list of a JSON object: the last
binding of a key wins, `none` when the key is absent (`KeyError`). -/
def dictGet : List (String × JsonValue) → String → Option JsonValue
  | [], _ => none
  | kv :: rest, k =>
      match dictGet rest k with
      | some v => some v
      | none => if kv.1 = k then some kv.2 else none

/-- `dataclasses.asdict` on a `PaperInsights`, in declared field order. -/
def insightsToJson (i : PaperInsights) : JsonValue :=
  .obj [("problem", .str i.problem),
        ("method", .str i.method),
        ("key_results", .str i.key_results),
        ("contributions", .arr (i.contributions.map .str)),
        ("related_work", .arr (i.related_work.map .str)),
        ("future_directions", .arr (i.future_directions.map .str)),
        ("classification", .str i.classification)]

/-- `None`/`str` serialization of the optional `pdf_path` field. -/
def optStrToJson : Option String → JsonValue
  | none => .null
  | some s => .str s

/-- `dataclasses.asdict` on a `Paper`, in declared field order; this is the
JSON document `PaperStore._save_paper` writes. -/
def paperToJson (p : Paper) : JsonValue :=
  .obj [("id", .str p.id),
        ("title", .str p.title),
        ("authors", .arr (p.authors.map .str)),
        ("url", .str p.url),
        ("pdf_path", optStrToJson p.pdf_path),
        ("added_date", .str p.added_date),
        ("interests", .arr (p.interests.map .str)),
        ("insights", insightsToJson p.insights),
        ("status", .str p.status),
        ("notes", .str p.notes)]

def JsonValue.asStr : JsonValue → Option String
  | .str s => some s
  | _ => none

/-- Decode a JSON array of strings (the declared type of the three list
fields). -/
def strListOfJson : List JsonValue → Option (List String)
  | [] => some []
  | v :: rest => do
      let s ← v.asStr
      let t ← strListOfJson rest
      pure (s :: t)

def JsonValue.asStrList : JsonValue → Option (List String)
  | .arr items => strListOfJson items
  | _ => none

/-- The exact keyword set `PaperInsights(**d)` accepts (all required). -/
def insightsKeys : List String :=
  ["problem", "method", "key_results", "contributions", "related_work",
   "future_directions", "classification"]

/-- The exact keyword set `Paper(**d)` accepts (`notes` optional). -/
def paperKeys : List String :=
  ["id", "title", "authors", "url", "pdf_path", "added_date", "interests",
   "insights", "status", "notes"]

/-- `null`/`str` decoding of the optional `pdf_path` field. -/
def optStrFromJson : JsonValue → Option (Option String)
  | .null => some none
  | .str s => some (some s)
  | _ => none

/-- `notes` is the one `Paper` field with a dataclass default (`""`), so an
absent key succeeds with the default. -/
def notesFromJson : Option JsonValue → Option String
  | some v => v.asStr
  | none => some ""

/-- `PaperInsights(**d)` as performed by `PaperStore._load_paper`: an
unexpected or missing keyword raises `TypeError` (caught by the caller, so
`none` here); values are decoded into the declared field types. -/
def insightsFromJson : JsonValue → Option PaperInsights
  | .obj fields =>
      if fields.all (fun kv => insightsKeys.contains kv.1) then
        match dictGet fields "problem", dictGet fields "method",
              dictGet fields "key_results", dictGet fields "contributions",
              dictGet fields "related_work", dictGet fields "future_directions",
              dictGet fields "classification" with
        | some (.str problem), some (.str method), some (.str key_results),
          some (.arr cs), some (.arr rw), some (.arr fd),
          some (.str classification) =>
            match strListOfJson cs, strListOfJson rw, strListOfJson fd with
            | some contributions, some related_work, some future_directions =>
                some { problem, method, key_results, contributions,
                       related_work, future_directions, classification }
            | _, _, _ => none
        | _, _, _, _, _, _, _ => none
      else none
  | _ => none

/-- `PaperStore._load_paper`'s body after `json.load`: replace the present,
truthy `insights` entry by `PaperInsights(**...)`, then `Paper(**data)`
(which requires `insights` and rejects unexpected keywords); any exception
is caught by the caller, so failures are `none`. -/
def paperFromJson : JsonValue → Option Paper
  | .obj fields =>
      if fields.all (fun kv => paperKeys.contains kv.1) then
        match dictGet fields "id", dictGet fields "title",
              dictGet fields "authors", dictGet fields "url" with
        | some (.str id), some (.str title), some (.arr aus), some (.str url) =>
          match dictGet fields "pdf_path", dictGet fields "added_date",
                dictGet fields "interests", dictGet fields "insights",
                dictGet fields "status" with
          | some pp, some (.str added_date), some (.arr ins), some iv,
            some (.str status) =>
            match optStrFromJson pp, strListOfJson aus, strListOfJson ins,
                  insightsFromJson iv, notesFromJson (dictGet fields "notes") with
            | some pdf_path, some authors, some interests, some insights,
              some notes =>
                some { id, title, authors, url, pdf_path, added_date,
                       interests, insights, status, notes }
            | _, _, _, _, _ => none
          | _, _, _, _, _ => none
        | _, _, _, _ => none
      else none
  | _ => none

/-- Content of one file in the store's directory: a JSON document, or bytes
`json.load` fails on. -/
inductive FileContent where
  | json (v : JsonValue)
  | corrupt (raw : String)

/-- The store's backing directory: file name to content, one entry per
existing file. -/
structure StoreState where
  files : List (String × FileContent)

def lookupFile : List (String × FileContent) → String → Option FileContent
  | [], _ => none
  | kv :: rest, p => if kv.1 = p then some kv.2 else lookupFile rest p

/-- `path.exists()` / reading `path`: the directory entry for a file name. -/
def fileLookup (st : StoreState) (path : String) : Option FileContent :=
  lookupFile st.files path

/-- `open(path, "w")` + write: (over)write one file, all others unchanged. -/
def setFile (st : StoreState) (path : String) (c : FileContent) : StoreState :=
  ⟨(path, c) :: st.files.filter fun kv => kv.1 != path⟩

/-- `str.replace(":", "_").replace("/", "_")` with single-character
patterns is the character-wise map replacing `:` and `/` by `_`. -/
def sanitizeChar (c : Char) : Char :=
  if c = ':' then '_' else if c = '/' then '_' else c

/-- `PaperStore._get_paper_path`: `<safe_id>.json` where `safe_id` replaces
`:` and `/` by `_`. -/
def getPaperPath (paperId : String) : String :=
  String.mk (paperId.data.map sanitizeChar) ++ ".json"

/-- Errors raised by the store (`ValueError` with the two message shapes). -/
inductive StoreError where
  | alreadyExists (id : String)
  | notFound (id : String)
deriving DecidableEq

namespace PaperStore

/-- `PaperStore.add`: raise if the mapped path exists, else write the
serialized record there.  The returned state is the directory after the
call (unchanged when the error is raised, since the raise precedes the
write). -/
def add (paper : Paper) (st : StoreState) : Except StoreError Unit × StoreState :=
  let path := getPaperPath paper.id
  if (fileLookup st path).isSome then
    (.error (.alreadyExists paper.id), st)
  else
    (.ok (), setFile st path (.json (paperToJson paper)))

/-- `PaperStore._load_paper`: `json.load` failure or any exception during
reconstruction yields `None`. -/
def loadPaper : FileContent → Option Paper
  | .json v => paperFromJson v
  | .corrupt _ => none

/-- `PaperStore.get`: `None` when the path does not exist, else
`_load_paper` (which never raises). -/
def get (paper_id : String) (st : StoreState) : Option Paper :=
  match fileLookup st (getPaperPath paper_id) with
  | none => none
  | some c => loadPaper c

/-- `PaperStore.update`: raise if the mapped path does not exist, else
overwrite it wholesale. -/
def update (paper : Paper) (st : StoreState) : Except StoreError Unit × StoreState :=
  let path := getPaperPath paper.id
  if (fileLookup st path).isSome then
    (.ok (), setFile st path (.json (paperToJson paper)))
  else
    (.error (.notFound paper.id), st)

/-- `PaperStore.delete`: raise if absent, else unlink the file. -/
def delete (paper_id : String) (st : StoreState) : Except StoreError Unit × StoreState :=
  let path := getPaperPath paper_id
  if (fileLookup st (getPaperPath paper_id)).isSome then
    (.ok (), ⟨st.files.filter fun kv => kv.1 != path⟩)
  else
    (.error (.notFound paper_id), st)

/-- `PaperStore.list_all`: every `*.json` entry of the directory in
enumeration order (`Path.glob("*.json")` selects the names with suffix
".json"), keeping those that `_load_paper` parses. -/
def list_all (st : StoreState) : List Paper :=
  (st.files.filter fun kv => ".json".data.isSuffixOf kv.1.data).filterMap
    fun kv => loadPaper kv.2

end PaperStore

/-! Python string primitives used by `search` and by the extractor, at the
`List Char` level. -/

/-- Index of the first occurrence of `needle` in `hay` (Python
`hay.find(needle)` without the `-1` encoding; `none` when absent).
The empty needle occurs at index 0, as in Python. -/
def findSub (hay needle : List Char) : Option Nat :=
  if needle.isPrefixOf hay then some 0
  else
    match hay with
    | [] => none
    | _ :: t => (findSub t needle).map (· + 1)

/-- Python `needle in hay` for strings: substring containment. -/
def containsSub (hay needle : List Char) : Bool :=
  (findSub hay needle).isSome

/-- Python `needle in hay` on `String`s. -/
def containsStr (hay needle : String) : Bool :=
  containsSub hay.data needle.data

/-- Python `str.lower()`, character-wise (exact on ASCII). -/
def pyLower (s : String) : String :=
  String.mk (s.data.map Char.toLower)

namespace PaperStore

/-- The loop body of `PaperStore.search`: first test the title, `continue`
on a hit; else test `insights.problem + insights.method +
insights.key_results` (a loaded `Paper` always carries a truthy
`insights`). -/
def searchLoop (query_lower : String) : List Paper → List Paper
  | [] => []
  | p :: rest =>
      if containsStr (pyLower p.title) query_lower then
        p :: searchLoop query_lower rest
      else if containsStr
          (pyLower (p.insights.problem ++ p.insights.method ++ p.insights.key_results))
          query_lower then
        p :: searchLoop query_lower rest
      else searchLoop query_lower rest

/-- `PaperStore.search`: lower-case the query once, then filter `list_all()`
in order. -/
def search (query : String) (st : StoreState) : List Paper :=
  searchLoop (pyLower query) (list_all st)

end PaperStore

/-! The Insight Extraction Pipeline (src/insight_extractor/extractor.py). -/

/-- The literal truncation marker appended by
`InsightExtractor._build_extraction_prompt`. -/
def truncMarker : String := "\n\n[... text truncated ...]"

/-- The prompt template before the embedded title. -/
def promptPart1 : String :=
  "Extract key insights from this research paper.\n\nPaper Title: "

/-- The prompt template between the title and the (truncated) text. -/
def promptPart2 : String := "\n\nPaper Text:\n"

/-- The prompt template after the (truncated) text: the seven-field
instructions and the JSON shape (the source's `{{`/`}}` are literal
braces). -/
def promptPart3 : String :=
  "\n\nPlease analyze this paper and extract the following information:\n\n1. PROBLEM: What problem or research question does this paper address? (2-3 sentences)\n2. METHOD: What approach or method does the paper use? (2-3 sentences)\n3. KEY RESULTS: What are the main results or findings? (2-3 sentences)\n4. CONTRIBUTIONS: What are the key contributions? (bullet points)\n5. RELATED WORK: What related work is referenced? (list 3-5 key papers/areas)\n6. FUTURE DIRECTIONS: What future research directions are mentioned? (bullet points)\n7. CLASSIFICATION: Is this foundational (introduces new concepts/methods) or incremental (improves existing work)?\n\nFormat your response as JSON:\n\x7b\n  \"problem\": \"...\",\n  \"method\": \"...\",\n  \"key_results\": \"...\",\n  \"contributions\": [\"...\", \"...\"],\n  \"related_work\": [\"...\", \"...\"],\n  \"future_directions\": [\"...\", \"...\"],\n  \"classification\": \"foundational\" or \"incremental\"\n\x7d"

/-- `InsightExtractor._build_extraction_prompt`: truncate the text to its
first 8000 characters, append the marker when anything was cut, and embed
title and text into the fixed template. -/
def buildExtractionPrompt (title text : String) : String :=
  let max_text_length := 8000
  let truncated_text := String.mk (text.data.take max_text_length)
  let truncated_text :=
    if text.length > max_text_length then truncated_text ++ truncMarker
    else truncated_text
  promptPart1 ++ title ++ promptPart2 ++ truncated_text ++ promptPart3


/-! A model of Python's `json.loads` (RFC 8259 syntax plus the `NaN` /
`Infinity` / `-Infinity` constants Python accepts by default).  Recursion is
fuelled; `jsonParse` supplies ample fuel (nesting depth is below
`2 * length + 2`), so fuel exhaustion never occurs on real input. -/

/-- JSON inter-token whitespace: space, tab, LF, CR. -/
def skipWs : List Char → List Char
  | [] => []
  | c :: t =>
      if c = ' ' ∨ c = '\t' ∨ c = '\n' ∨ c = '\r' then skipWs t else c :: t

def hexVal (c : Char) : Option Nat :=
  if '0' ≤ c ∧ c ≤ '9' then some (c.toNat - 48)
  else if 'a' ≤ c ∧ c ≤ 'f' then some (c.toNat - 87)
  else if 'A' ≤ c ∧ c ≤ 'F' then some (c.toNat - 55)
  else none

def hex4 : List Char → Option (Nat × List Char)
  | a :: b :: c :: d :: t =>
      match hexVal a, hexVal b, hexVal c, hexVal d with
      | some va, some vb, some vc, some vd =>
          some (va * 4096 + vb * 256 + vc * 16 + vd, t)
      | _, _, _, _ => none
  | _ => none

/-- Body of a JSON string after the opening quote (strict mode: raw control
characters rejected); the standard escapes and `\uXXXX` are decoded, with a
surrogate pair combined into one scalar.  (Python additionally tolerates a
*lone* surrogate escape, which a Lean `Char` cannot carry; no claim
involves one.) -/
def parseStrBody : Nat → List Char → List Char → Option (String × List Char)
  | 0, _, _ => none
  | fuel + 1, acc, l =>
      match l with
      | [] => none
      | '"' :: t => some (String.mk acc.reverse, t)
      | '\\' :: e :: t =>
          match e with
          | '"' => parseStrBody fuel ('"' :: acc) t
          | '\\' => parseStrBody fuel ('\\' :: acc) t
          | '/' => parseStrBody fuel ('/' :: acc) t
          | 'b' => parseStrBody fuel ('\x08' :: acc) t
          | 'f' => parseStrBody fuel ('\x0c' :: acc) t
          | 'n' => parseStrBody fuel ('\n' :: acc) t
          | 'r' => parseStrBody fuel ('\r' :: acc) t
          | 't' => parseStrBody fuel ('\t' :: acc) t
          | 'u' =>
              match hex4 t with
              | none => none
              | some (n1, t1) =>
                  if 0xD800 ≤ n1 ∧ n1 ≤ 0xDBFF then
                    match t1 with
                    | '\\' :: 'u' :: t2 =>
                        match hex4 t2 with
                        | none => none
                        | some (n2, t3) =>
                            if 0xDC00 ≤ n2 ∧ n2 ≤ 0xDFFF then
                              parseStrBody fuel
                                (Char.ofNat
                                  (0x10000 + (n1 - 0xD800) * 0x400 + (n2 - 0xDC00)) :: acc) t3
                            else none
                    | _ => none
                  else if 0xDC00 ≤ n1 ∧ n1 ≤ 0xDFFF then none
                  else parseStrBody fuel (Char.ofNat n1 :: acc) t1
          | _ => none
      | c :: t => if c.toNat < 32 then none else parseStrBody fuel (c :: acc) t

def takeDigits : List Char → List Char × List Char
  | [] => ([], [])
  | c :: t =>
      if c.isDigit then
        let r := takeDigits t
        (c :: r.1, r.2)
      else ([], c :: t)

/-- JSON integer part: `0`, or a nonzero digit followed by digits. -/
def parseIntPart : List Char → Option (List Char × List Char)
  | [] => none
  | '0' :: t => some (['0'], t)
  | c :: t =>
      if c.isDigit then
        let r := takeDigits t
        some (c :: r.1, r.2)
      else none

/-- Optional JSON fraction part: `.` requires at least one digit. -/
def parseFrac : List Char → Option (List Char × List Char)
  | '.' :: t =>
      match takeDigits t with
      | ([], _) => none
      | (ds, r) => some ('.' :: ds, r)
  | l => some ([], l)

/-- Optional JSON exponent part: `e`/`E`, optional sign, at least one digit. -/
def parseExp : List Char → Option (List Char × List Char)
  | [] => some ([], [])
  | c :: t =>
      if c = 'e' ∨ c = 'E' then
        match t with
        | [] => none
        | s :: t2 =>
            if s = '+' ∨ s = '-' then
              match takeDigits t2 with
              | ([], _) => none
              | (ds, r) => some (c :: s :: ds, r)
            else
              match takeDigits t with
              | ([], _) => none
              | (ds, r) => some (c :: ds, r)
      else some ([], c :: t)

/-- A JSON number; the token is kept verbatim (its numeric value matters to
no claim). -/
def parseNumber (l : List Char) : Option (String × List Char) :=
  let p := match l with
    | '-' :: t => (['-'], t)
    | _ => (([] : List Char), l)
  match parseIntPart p.2 with
  | none => none
  | some (ip, l2) =>
      match parseFrac l2 with
      | none => none
      | some (fp, l3) =>
          match parseExp l3 with
          | none => none
          | some (ep, l4) => some (String.mk (p.1 ++ ip ++ fp ++ ep), l4)

def jtrue : List Char := "true".data
def jfalse : List Char := "false".data
def jnull : List Char := "null".data
def jnan : List Char := "NaN".data
def jinf : List Char := "Infinity".data
def jninf : List Char := "-Infinity".data

mutual

/-- One JSON value at the head of `l` (leading whitespace already
skipped). -/
def parseValue : Nat → List Char → Option (JsonValue × List Char)
  | 0, _ => none
  | fuel + 1, l =>
      match l with
      | '"' :: t =>
          (parseStrBody (t.length + 1) [] t).map fun sr => (JsonValue.str sr.1, sr.2)
      | '{' :: t =>
          match skipWs t with
          | '}' :: r => some (.obj [], r)
          | t2 => parseObjMembers fuel t2 []
      | '[' :: t =>
          match skipWs t with
          | ']' :: r => some (.arr [], r)
          | t2 => parseArrItems fuel t2 []
      | _ =>
          if jtrue.isPrefixOf l then some (.bool true, l.drop 4)
          else if jfalse.isPrefixOf l then some (.bool false, l.drop 5)
          else if jnull.isPrefixOf l then some (.null, l.drop 4)
          else if jnan.isPrefixOf l then some (.num "NaN", l.drop 3)
          else if jinf.isPrefixOf l then some (.num "Infinity", l.drop 8)
          else if jninf.isPrefixOf l then some (.num "-Infinity", l.drop 9)
          else (parseNumber l).map fun sr => (JsonValue.num sr.1, sr.2)

/-- Members of a JSON object after `{` (at least one member; `{}` is
handled by `parseValue`). -/
def parseObjMembers :
    Nat → List Char → List (String × JsonValue) → Option (JsonValue × List Char)
  | 0, _, _ => none
  | fuel + 1, l, acc =>
      match l with
      | '"' :: t =>
          match parseStrBody (t.length + 1) [] t with
          | none => none
          | some (k, r1) =>
              match skipWs r1 with
              | ':' :: r2 =>
                  match parseValue fuel (skipWs r2) with
                  | none => none
                  | some (v, r3) =>
                      match skipWs r3 with
                      | ',' :: r4 => parseObjMembers fuel (skipWs r4) ((k, v) :: acc)
                      | '}' :: r4 => some (.obj ((k, v) :: acc).reverse, r4)
                      | _ => none
              | _ => none
      | _ => none

/-- Items of a JSON array after `[` (at least one item; `[]` is handled by
`parseValue`). -/
def parseArrItems :
    Nat → List Char → List JsonValue → Option (JsonValue × List Char)
  | 0, _, _ => none
  | fuel + 1, l, acc =>
      match parseValue fuel l with
      | none => none
      | some (v, r1) =>
          match skipWs r1 with
          | ',' :: r2 => parseArrItems fuel (skipWs r2) (v :: acc)
          | ']' :: r2 => some (.arr (v :: acc).reverse, r2)
          | _ => none

end

/-- `json.loads`: one value, surrounding whitespace allowed, trailing
non-whitespace is an error ("Extra data"). -/
def jsonParse (s : List Char) : Option JsonValue :=
  match parseValue (2 * s.length + 2) (skipWs s) with
  | none => none
  | some (v, rest) => if (skipWs rest).isEmpty then some v else none

/-! `InsightExtractor._parse_response` (src/insight_extractor/extractor.py). -/

/-- Python `hay.find(needle, start)`: absolute index of the first
occurrence at or after `start`, `-1` when absent. -/
def pyFindFrom (hay needle : List Char) (start : Nat) : Int :=
  match findSub (hay.drop start) needle with
  | some j => ((start + j : Nat) : Int)
  | none => -1

/-- Python `l[a:b]` for `0 ≤ a` and an `Int` end (negative counts from the
end, out-of-range clamps). -/
def pySlice (l : List Char) (a : Nat) (b : Int) : List Char :=
  let n := l.length
  let b2 : Int := if b < 0 then (n : Int) + b else b
  let b3 : Nat := if b2 < 0 then 0 else min b2.toNat n
  (l.take b3).drop a

/-- Python `str.strip()` (on the ASCII whitespace involved here). -/
def pyStrip (l : List Char) : List Char :=
  ((l.dropWhile Char.isWhitespace).reverse.dropWhile Char.isWhitespace).reverse

def fenceJson : List Char := "```json".data

def fenceMark : List Char := "```".data

/-- The fence-stripping logic of `_parse_response`: a ```` ```json ````
fence first, else any ```` ``` ```` fence, else the whole response; the
chosen slice runs to the next closing fence (`find` yielding `-1` when
there is none, exactly as in the source) and is stripped. -/
def extractJsonStr (response : List Char) : List Char :=
  match findSub response fenceJson with
  | some i =>
      pyStrip (pySlice response (i + 7) (pyFindFrom response fenceMark (i + 7)))
  | none =>
      match findSub response fenceMark with
      | some i =>
          pyStrip (pySlice response (i + 3) (pyFindFrom response fenceMark (i + 3)))
      | none => pyStrip response

/-- Causes wrapped into the single `ValueError("Failed to parse response:
...")`: failed `json.loads`, a non-dict payload (`TypeError` on
`data["problem"]`), a missing key (`KeyError`), or — in this typed
embedding — a value not of the declared field type. -/
inductive ParseErr where
  | malformedJson
  | notAnObject
  | missingKey (k : String)
  | badFieldType (k : String)
deriving DecidableEq

def getStrField (fields : List (String × JsonValue)) (k : String) :
    Except ParseErr String :=
  match dictGet fields k with
  | none => .error (.missingKey k)
  | some v =>
      match v.asStr with
      | some s => .ok s
      | none => .error (.badFieldType k)

def getStrListField (fields : List (String × JsonValue)) (k : String) :
    Except ParseErr (List String) :=
  match dictGet fields k with
  | none => .error (.missingKey k)
  | some v =>
      match v.asStrList with
      | some s => .ok s
      | none => .error (.badFieldType k)

/-- The `PaperInsights(problem=data["problem"], ...)` construction, reading
the seven keys in the source's order; extra keys are ignored (keyword
construction with explicit arguments).  The `classification` value is read
as a plain string — it is *not* checked against the two-value enum. -/
def buildInsights (fields : List (String × JsonValue)) :
    Except ParseErr PaperInsights :=
  match getStrField fields "problem" with
  | .error e => .error e
  | .ok problem =>
  match getStrField fields "method" with
  | .error e => .error e
  | .ok method =>
  match getStrField fields "key_results" with
  | .error e => .error e
  | .ok key_results =>
  match getStrListField fields "contributions" with
  | .error e => .error e
  | .ok contributions =>
  match getStrListField fields "related_work" with
  | .error e => .error e
  | .ok related_work =>
  match getStrListField fields "future_directions" with
  | .error e => .error e
  | .ok future_directions =>
  match getStrField fields "classification" with
  | .error e => .error e
  | .ok classification =>
      .ok { problem, method, key_results, contributions, related_work,
            future_directions, classification }

/-- `InsightExtractor._parse_response`: extract the payload, `json.loads`
it, build the `PaperInsights`; every failure surfaces as the single
wrapping error (never a partial value). -/
def parseResponse (response : String) : Except ParseErr PaperInsights :=
  match jsonParse (extractJsonStr response.data) with
  | none => .error .malformedJson
  | some (.obj fields) => buildInsights fields
  | some _ => .error .notAnObject


/-! Spec-side predicates and concrete sample data (used in statements and
witnesses). -/

/-- The search criterion of §4.2: lowercased query a substring of the
lowercased title, or of the lowercased concatenation
`problem + method + key_results` of the insights. -/
def searchPred (query_lower : String) (p : Paper) : Bool :=
  containsStr (pyLower p.title) query_lower ||
  containsStr
    (pyLower (p.insights.problem ++ p.insights.method ++ p.insights.key_results))
    query_lower

/-- The id scheme of §4.2: a namespace free of `:` and `/`, the separator
`:`, and a numeric suffix (digits and `.`, hence free of `/`, `:` and
`_`). -/
def idScheme (id : String) : Prop :=
  ∃ ns sfx : List Char, id.data = ns ++ ':' :: sfx ∧
    (∀ c ∈ ns, c ≠ ':' ∧ c ≠ '/') ∧
    (∀ c ∈ sfx, c.isDigit ∨ c = '.')

/-- Character-wise id aliasing: equal, or `:` against `/`. -/
def aliasChar (a b : Char) : Bool :=
  a == b || (a == ':' && b == '/') || (a == '/' && b == ':')

/-- Two ids of equal length that differ only by having `:` where the other
has `/`. -/
def aliasIds (x y : String) : Prop :=
  x.data.length = y.data.length ∧
  ((x.data.zip y.data).all fun ab => aliasChar ab.1 ab.2) = true

def sampleInsights : PaperInsights :=
  { problem := "Dense attention cost", method := "Sparse attention patterns",
    key_results := "Linear scaling", contributions := ["sparse kernels"],
    related_work := ["Transformer"], future_directions := ["longer contexts"],
    classification := "foundational" }

def samplePaper : Paper :=
  { id := "arxiv:2301.12345", title := "Sparse Attention Mechanisms",
    authors := ["A. One", "B. Two"], url := "https://arxiv.org/abs/2301.12345",
    pdf_path := some "/papers/2301.12345.pdf", added_date := "2024-01-01",
    interests := ["ml"], insights := sampleInsights, status := "to-read",
    notes := "" }

def emptyStore : StoreState := ⟨[]⟩

def sampleStore : StoreState := (PaperStore.add samplePaper emptyStore).2

/-- A store holding one good record and one corrupt file. -/
def mixedStore : StoreState :=
  ⟨[("corrupt.json", .corrupt "not json at all"),
    (getPaperPath samplePaper.id, .json (paperToJson samplePaper))]⟩

/-- A complete seven-key insights payload (no backtick, does not start
with "json"). -/
def samplePayload : String :=
  "\x7b\"problem\": \"P\", \"method\": \"M\", \"key_results\": \"K\", \"contributions\": [\"c1\"], \"related_work\": [\"r1\"], \"future_directions\": [], \"classification\": \"foundational\"\x7d"

/-- The `PaperInsights` value `samplePayload` decodes to. -/
def samplePayloadInsights : PaperInsights :=
  { problem := "P", method := "M", key_results := "K",
    contributions := ["c1"], related_work := ["r1"], future_directions := [],
    classification := "foundational" }

/-- A well-formed seven-key response whose classification is neither
"foundational" nor "incremental". -/
def thirdClassResponse : String :=
  "\x7b\"problem\": \"P\", \"method\": \"M\", \"key_results\": \"K\", \"contributions\": [\"c1\"], \"related_work\": [\"r1\"], \"future_directions\": [], \"classification\": \"exploratory\"\x7d"

/-- `thirdClassResponse` parsed. -/
def thirdClassInsights : PaperInsights :=
  { problem := "P", method := "M", key_results := "K",
    contributions := ["c1"], related_work := ["r1"], future_directions := [],
    classification := "exploratory" }

/-- `samplePaper` under the slash-variant of its id. -/
def aliasPaper : Paper := { samplePaper with id := "arxiv/2301.12345" }

/-- A response that is prose, not JSON. -/
def proseResponse : String := "The paper studies attention; no JSON here."

/-- A valid JSON object missing six of the seven keys. -/
def missingKeyResponse : String := "\x7b\"problem\": \"p\"\x7d"


/-- The backtick character (code point 96), named to keep proofs free of
raw backtick literals. -/
def btChar : Char := Char.ofNat 96

/-! Helper lemmas for the store. -/

theorem strListOfJson_map_str (l : List String) :
    strListOfJson (l.map JsonValue.str) = some l := by
  induction l with
  | nil => rfl
  | cons h t ih => simp [strListOfJson, JsonValue.asStr, ih]

theorem insights_roundtrip (i : PaperInsights) :
    insightsFromJson (insightsToJson i) = some i := by
  simp [insightsToJson, insightsFromJson, dictGet, insightsKeys,
    strListOfJson_map_str]

theorem paper_roundtrip (p : Paper) :
    paperFromJson (paperToJson p) = some p := by
  obtain ⟨id, title, authors, url, pp, ad, its, ins, stt, nts⟩ := p
  cases pp <;>
    simp [paperToJson, paperFromJson, dictGet, paperKeys, optStrToJson,
      optStrFromJson, notesFromJson, JsonValue.asStr, strListOfJson_map_str,
      insights_roundtrip]

theorem lookupFile_filter_ne (l : List (String × FileContent)) (p q : String)
    (h : q ≠ p) :
    lookupFile (l.filter fun kv => kv.1 != p) q = lookupFile l q := by
  induction l with
  | nil => rfl
  | cons kv rest ih =>
      by_cases hkv : kv.1 = p
      · have hq : kv.1 ≠ q := fun hx => h (hx ▸ hkv)
        simp [List.filter_cons, lookupFile, hkv, Ne.symm h, ih]
      · by_cases hq : kv.1 = q
        · simp [List.filter_cons, lookupFile, bne_iff_ne, hkv, hq, h, ih]
        · simp [List.filter_cons, lookupFile, bne_iff_ne, hkv, hq, ih]

theorem fileLookup_setFile_self (st : StoreState) (p : String)
    (c : FileContent) :
    fileLookup (setFile st p c) p = some c := by
  simp [fileLookup, setFile, lookupFile]

theorem fileLookup_setFile_ne (st : StoreState) (p q : String)
    (c : FileContent) (h : q ≠ p) :
    fileLookup (setFile st p c) q = fileLookup st q := by
  have hpq : p ≠ q := fun hx => h hx.symm
  simp [fileLookup, setFile, lookupFile, hpq, lookupFile_filter_ne _ _ _ h]

/-! The claims. -/

/-- C1: creating a record at a previously absent mapped location and then
reading its id returns a structurally equal record — every field, the
nested insights value and the optional pdf_path included, round-trips
through the write-then-read cycle. -/
theorem c1_create_then_read_roundtrip (r : Paper) (st : StoreState)
    (h : fileLookup st (getPaperPath r.id) = none) :
    PaperStore.get r.id (PaperStore.add r st).2 = some r := by
  simp [PaperStore.add, h, PaperStore.get, fileLookup_setFile_self,
    PaperStore.loadPaper, paper_roundtrip]

/-- C1 witness: the round-trip at a concrete record and the empty store. -/
theorem c1_witness :
    fileLookup emptyStore (getPaperPath samplePaper.id) = none ∧
    PaperStore.get samplePaper.id (PaperStore.add samplePaper emptyStore).2 =
      some samplePaper :=
  ⟨rfl, c1_create_then_read_roundtrip samplePaper emptyStore rfl⟩

/-- C2: create at an occupied mapped location raises AlreadyExists and
leaves the directory — in particular the stored record — unchanged; create
at a free location succeeds and writes exactly one file, at that location,
leaving every other location unchanged. -/
theorem c2_create_already_exists_or_write_once (p : Paper) (st : StoreState) :
    (∀ c, fileLookup st (getPaperPath p.id) = some c →
      PaperStore.add p st = (.error (.alreadyExists p.id), st)) ∧
    (fileLookup st (getPaperPath p.id) = none →
      (PaperStore.add p st).1 = .ok () ∧
      fileLookup (PaperStore.add p st).2 (getPaperPath p.id) =
        some (.json (paperToJson p)) ∧
      ∀ q, q ≠ getPaperPath p.id →
        fileLookup (PaperStore.add p st).2 q = fileLookup st q) := by
  constructor
  · intro c hc
    simp [PaperStore.add, hc]
  · intro h
    refine ⟨?_, ?_, ?_⟩
    · simp [PaperStore.add, h]
    · simp [PaperStore.add, h, fileLookup_setFile_self]
    · intro q hq
      simp [PaperStore.add, h, fileLookup_setFile_ne _ _ _ _ hq]

/-- C2 witness: the second create of the same record errors and keeps the
state; the first create writes the one file and leaves another location
untouched. -/
theorem c2_witness :
    PaperStore.add samplePaper sampleStore =
      (.error (.alreadyExists samplePaper.id), sampleStore) ∧
    (PaperStore.add samplePaper emptyStore).1 = .ok () ∧
    fileLookup (PaperStore.add samplePaper emptyStore).2 "other.json" =
      fileLookup emptyStore "other.json" :=
  ⟨(c2_create_already_exists_or_write_once samplePaper sampleStore).1
      (.json (paperToJson samplePaper)) rfl,
   ((c2_create_already_exists_or_write_once samplePaper emptyStore).2 rfl).1,
   ((c2_create_already_exists_or_write_once samplePaper emptyStore).2 rfl).2.2
      "other.json" (by decide)⟩

/-- C3: read never raises — it is a total function equal to looking the
mapped location up and parsing: `none` when no file exists there, `none`
again (the same absence signal) when a file exists but fails to parse, and
the record when a parseable record is present. -/
theorem c3_read_absence_signal (paper_id : String) (st : StoreState) :
    PaperStore.get paper_id st =
      (fileLookup st (getPaperPath paper_id)).bind PaperStore.loadPaper ∧
    (fileLookup st (getPaperPath paper_id) = none →
      PaperStore.get paper_id st = none) ∧
    (∀ raw, fileLookup st (getPaperPath paper_id) = some (.corrupt raw) →
      PaperStore.get paper_id st = none) ∧
    (∀ c r, fileLookup st (getPaperPath paper_id) = some c →
      PaperStore.loadPaper c = some r →
      PaperStore.get paper_id st = some r) := by
  refine ⟨?_, ?_, ?_, ?_⟩
  · cases hc : fileLookup st (getPaperPath paper_id) <;>
      simp [PaperStore.get, hc]
  · intro h
    simp [PaperStore.get, h]
  · intro raw h
    simp [PaperStore.get, h, PaperStore.loadPaper]
  · intro c r hc hr
    simp [PaperStore.get, hc, hr]

/-- C3 witness: on a store with one good and one corrupt file, reading the
good id returns the record, reading the corrupt file's id returns `none`,
and reading an absent id returns `none`. -/
theorem c3_witness :
    fileLookup mixedStore (getPaperPath "corrupt") =
      some (.corrupt "not json at all") ∧
    PaperStore.get "corrupt" mixedStore = none ∧
    fileLookup mixedStore (getPaperPath "absent") = none ∧
    PaperStore.get "absent" mixedStore = none ∧
    PaperStore.get samplePaper.id mixedStore = some samplePaper :=
  ⟨rfl,
   (c3_read_absence_signal "corrupt" mixedStore).2.2.1 "not json at all" rfl,
   rfl,
   (c3_read_absence_signal "absent" mixedStore).2.1 rfl,
   (c3_read_absence_signal samplePaper.id mixedStore).2.2.2
      (.json (paperToJson samplePaper)) samplePaper rfl
      (paper_roundtrip samplePaper)⟩


/-! Search (C4). -/

theorem searchLoop_eq_filter (ql : String) (l : List Paper) :
    PaperStore.searchLoop ql l = l.filter (searchPred ql) := by
  induction l with
  | nil => rfl
  | cons p rest ih =>
      cases h1 : containsStr (pyLower p.title) ql
      · cases h2 : containsStr
            (pyLower (p.insights.problem ++ p.insights.method ++
              p.insights.key_results)) ql
        · simp [PaperStore.searchLoop, searchPred, h1, h2, ih,
            List.filter_cons]
        · simp [PaperStore.searchLoop, searchPred, h1, h2, ih,
            List.filter_cons]
      · simp [PaperStore.searchLoop, searchPred, h1, ih, List.filter_cons]

/-- C4: search returns exactly those records of list_all() whose lowercased
title, or lowercased problem+method+key_results concatenation, has the
lowercased query as a substring, in list_all() order (matching is
case-insensitive by construction); a query matching no record yields the
empty sequence. -/
theorem c4_search_is_filter (query : String) (st : StoreState) :
    PaperStore.search query st =
      (PaperStore.list_all st).filter (searchPred (pyLower query)) ∧
    ((∀ p ∈ PaperStore.list_all st, searchPred (pyLower query) p = false) →
      PaperStore.search query st = []) := by
  refine ⟨searchLoop_eq_filter _ _, fun h => ?_⟩
  rw [PaperStore.search, searchLoop_eq_filter]
  exact List.filter_eq_nil_iff.mpr fun p hp => by simp [h p hp]

/-- C4 witness: a non-matching query on a one-record store. -/
theorem c4_witness :
    PaperStore.search "nonexistent term" sampleStore =
      (PaperStore.list_all sampleStore).filter
        (searchPred (pyLower "nonexistent term")) ∧
    PaperStore.search "nonexistent term" sampleStore = [] :=
  ⟨(c4_search_is_filter "nonexistent term" sampleStore).1,
   (c4_search_is_filter "nonexistent term" sampleStore).2 (by decide)⟩

/-! The id-to-location mapping (C8, C10). -/

theorem string_mk_data (l : List Char) : (String.mk l).data = l := rfl

theorem map_sanitize_eq_self (l : List Char)
    (h : ∀ c ∈ l, c ≠ ':' ∧ c ≠ '/') : l.map sanitizeChar = l := by
  induction l with
  | nil => rfl
  | cons c t ih =>
      have hc := h c (List.mem_cons_self c t)
      simp [sanitizeChar, hc.1, hc.2,
        ih fun x hx => h x (List.mem_cons_of_mem c hx)]

theorem digit_or_dot_safe (c : Char) (h : c.isDigit ∨ c = '.') :
    c ≠ ':' ∧ c ≠ '/' ∧ c ≠ '_' := by
  rcases h with h | h
  · refine ⟨?_, ?_, ?_⟩ <;> (intro hx; rw [hx] at h; exact absurd h (by decide))
  · rw [h]; exact ⟨by decide, by decide, by decide⟩

/-- In `p₁ ++ a :: t₁ = p₂ ++ a :: t₂`, if `a` occurs in neither prefix,
the two decompositions coincide. -/
theorem first_occ_unique (a : Char) (p1 : List Char) :
    ∀ (p2 t1 t2 : List Char), a ∉ p1 → a ∉ p2 →
      p1 ++ a :: t1 = p2 ++ a :: t2 → p1 = p2 ∧ t1 = t2 := by
  induction p1 with
  | nil =>
      intro p2 t1 t2 _ h2 h
      cases p2 with
      | nil => simpa using h
      | cons b p2 =>
          simp only [List.nil_append, List.cons_append, List.cons.injEq] at h
          exact absurd (h.1 ▸ List.mem_cons_self b p2) h2
  | cons c p1 ih =>
      intro p2 t1 t2 h1 h2 h
      cases p2 with
      | nil =>
          simp only [List.nil_append, List.cons_append, List.cons.injEq] at h
          exact absurd (h.1.symm ▸ List.mem_cons_self c p1) h1
      | cons b p2 =>
          simp only [List.cons_append, List.cons.injEq] at h
          obtain ⟨hcb, hrest⟩ := h
          have hr := ih p2 t1 t2 (fun hx => h1 (List.mem_cons_of_mem c hx))
            (fun hx => h2 (List.mem_cons_of_mem b hx)) hrest
          exact ⟨by rw [hcb, hr.1], hr.2⟩

/-- Same decomposition uniqueness when `a` occurs in neither suffix. -/
theorem last_occ_unique (a : Char) (p1 p2 t1 t2 : List Char)
    (h1 : a ∉ t1) (h2 : a ∉ t2)
    (h : p1 ++ a :: t1 = p2 ++ a :: t2) : p1 = p2 ∧ t1 = t2 := by
  have hr : t1.reverse ++ a :: p1.reverse = t2.reverse ++ a :: p2.reverse := by
    have hrev := congrArg List.reverse h
    simpa [List.reverse_append, List.append_assoc] using hrev
  have hu := first_occ_unique a t1.reverse t2.reverse p1.reverse p2.reverse
    (by simpa using h1) (by simpa using h2) hr
  exact ⟨List.reverse_inj.mp hu.2, List.reverse_inj.mp hu.1⟩

/-- C8: the id-to-location mapping (replace every `:` and `/` by `_`, then
append ".json") is deterministic — it is a pure function of the id — and
injective on the id scheme in use: two distinct ids, each a `:`-separated
namespace plus numeric suffix, map to distinct locations. -/
theorem c8_mapping_injective_on_scheme (id1 id2 : String)
    (h1 : idScheme id1) (h2 : idScheme id2) (hne : id1 ≠ id2) :
    getPaperPath id1 ≠ getPaperPath id2 := by
  intro heq
  obtain ⟨ns1, s1, hd1, hns1, hs1⟩ := h1
  obtain ⟨ns2, s2, hd2, hns2, hs2⟩ := h2
  have hmap : id1.data.map sanitizeChar = id2.data.map sanitizeChar := by
    have hdata := congrArg String.data heq
    simp only [getPaperPath, String.data_append, string_mk_data] at hdata
    exact List.append_cancel_right hdata
  rw [hd1, hd2] at hmap
  have hs1' : ∀ c ∈ s1, c ≠ ':' ∧ c ≠ '/' := fun c hc =>
    ⟨(digit_or_dot_safe c (hs1 c hc)).1, (digit_or_dot_safe c (hs1 c hc)).2.1⟩
  have hs2' : ∀ c ∈ s2, c ≠ ':' ∧ c ≠ '/' := fun c hc =>
    ⟨(digit_or_dot_safe c (hs2 c hc)).1, (digit_or_dot_safe c (hs2 c hc)).2.1⟩
  simp only [List.map_append, List.map_cons, map_sanitize_eq_self ns1 hns1,
    map_sanitize_eq_self ns2 hns2, map_sanitize_eq_self s1 hs1',
    map_sanitize_eq_self s2 hs2'] at hmap
  have hsc : sanitizeChar ':' = '_' := rfl
  rw [hsc] at hmap
  have hu := last_occ_unique '_' ns1 ns2 s1 s2
    (fun hx => (digit_or_dot_safe '_' (hs1 '_' hx)).2.2 rfl)
    (fun hx => (digit_or_dot_safe '_' (hs2 '_' hx)).2.2 rfl)
    hmap
  exact hne (String.ext (hd1.trans (by rw [hu.1, hu.2, ← hd2])))

/-- C8 witness: two distinct scheme-conforming ids map to distinct
locations. -/
theorem c8_witness :
    getPaperPath "arxiv:2301.12345" ≠ getPaperPath "arxiv:9999.00001" :=
  c8_mapping_injective_on_scheme "arxiv:2301.12345" "arxiv:9999.00001"
    ⟨"arxiv".data, "2301.12345".data, by decide, by decide, by decide⟩
    ⟨"arxiv".data, "9999.00001".data, by decide, by decide, by decide⟩
    (by decide)

/-! Id aliasing (C10). -/

theorem alias_map_eq (l1 : List Char) :
    ∀ l2 : List Char, l1.length = l2.length →
      ((l1.zip l2).all fun ab => aliasChar ab.1 ab.2) = true →
      l1.map sanitizeChar = l2.map sanitizeChar := by
  induction l1 with
  | nil =>
      intro l2 hlen _
      cases l2 with
      | nil => rfl
      | cons b t2 => simp at hlen
  | cons a t ih =>
      intro l2 hlen hall
      cases l2 with
      | nil => simp at hlen
      | cons b t2 =>
          simp only [List.zip_cons_cons, List.all_cons, Bool.and_eq_true] at hall
          obtain ⟨hab, hrest⟩ := hall
          have htl := ih t2 (by simpa using hlen) hrest
          have hhead : sanitizeChar a = sanitizeChar b := by
            simp only [aliasChar, Bool.or_eq_true, Bool.and_eq_true,
              beq_iff_eq] at hab
            rcases hab with (hab | ⟨ha, hb⟩) | ⟨ha, hb⟩
            · rw [hab]
            · rw [ha, hb]; decide
            · rw [ha, hb]; decide
          simp [hhead, htl]

/-- C10: two distinct ids that differ only by `:` against `/` map to the
same storage location, so they alias one record: after create under the
first id, create under the second raises AlreadyExists and leaves the
state unchanged, and read of the second id returns the stored record,
whose id field is the first id, not the id asked for. -/
theorem c10_alias_collision (id1 id2 : String) (p q : Paper) (st : StoreState)
    (halias : aliasIds id1 id2) (hne : id1 ≠ id2)
    (hp : p.id = id1) (hq : q.id = id2)
    (hfree : fileLookup st (getPaperPath id1) = none) :
    getPaperPath id1 = getPaperPath id2 ∧
    PaperStore.add q (PaperStore.add p st).2 =
      (.error (.alreadyExists q.id), (PaperStore.add p st).2) ∧
    PaperStore.get id2 (PaperStore.add p st).2 = some p ∧
    p.id ≠ id2 := by
  have hpath : getPaperPath id1 = getPaperPath id2 := by
    simp [getPaperPath, alias_map_eq id1.data id2.data halias.1 halias.2]
  have hst : (PaperStore.add p st).2 =
      setFile st (getPaperPath id1) (.json (paperToJson p)) := by
    simp [PaperStore.add, hp, hfree]
  have hlook : fileLookup (PaperStore.add p st).2 (getPaperPath id2) =
      some (.json (paperToJson p)) := by
    rw [← hpath, hst]
    exact fileLookup_setFile_self _ _ _
  refine ⟨hpath, ?_, ?_, ?_⟩
  · have hlq : fileLookup (PaperStore.add p st).2 (getPaperPath q.id) =
        some (.json (paperToJson p)) := by rw [hq]; exact hlook
    generalize hgen : (PaperStore.add p st).2 = st2 at hlq ⊢
    simp [PaperStore.add, hlq]
  · simp [PaperStore.get, hlook, PaperStore.loadPaper, paper_roundtrip]
  · rw [hp]; exact hne

/-- C10 witness: `arxiv:2301.12345` and `arxiv/2301.12345` collide; the
second create errors, and reading the slash id returns the record created
under the colon id. -/
theorem c10_witness :
    getPaperPath "arxiv:2301.12345" = getPaperPath "arxiv/2301.12345" ∧
    PaperStore.add aliasPaper (PaperStore.add samplePaper emptyStore).2 =
      (.error (.alreadyExists "arxiv/2301.12345"),
        (PaperStore.add samplePaper emptyStore).2) ∧
    PaperStore.get "arxiv/2301.12345"
      (PaperStore.add samplePaper emptyStore).2 = some samplePaper ∧
    samplePaper.id ≠ "arxiv/2301.12345" :=
  c10_alias_collision "arxiv:2301.12345" "arxiv/2301.12345" samplePaper
    aliasPaper emptyStore ⟨by decide, by decide⟩ (by decide) rfl rfl rfl


/-! Response parsing: failure behaviour (C6). -/

theorem getStrField_ok_isSome (fields : List (String × JsonValue))
    (k : String) (s : String) (h : getStrField fields k = .ok s) :
    (dictGet fields k).isSome = true := by
  unfold getStrField at h
  cases hd : dictGet fields k with
  | none => simp [hd] at h
  | some v => rfl

theorem getStrListField_ok_isSome (fields : List (String × JsonValue))
    (k : String) (s : List String) (h : getStrListField fields k = .ok s) :
    (dictGet fields k).isSome = true := by
  unfold getStrListField at h
  cases hd : dictGet fields k with
  | none => simp [hd] at h
  | some v => rfl

theorem buildInsights_ok_keys (fields : List (String × JsonValue))
    (i : PaperInsights) (h : buildInsights fields = .ok i) :
    ∀ k ∈ insightsKeys, (dictGet fields k).isSome = true := by
  unfold buildInsights at h
  cases h1 : getStrField fields "problem" with
  | error e => simp [h1] at h
  | ok v1 =>
  cases h2 : getStrField fields "method" with
  | error e => simp [h1, h2] at h
  | ok v2 =>
  cases h3 : getStrField fields "key_results" with
  | error e => simp [h1, h2, h3] at h
  | ok v3 =>
  cases h4 : getStrListField fields "contributions" with
  | error e => simp [h1, h2, h3, h4] at h
  | ok v4 =>
  cases h5 : getStrListField fields "related_work" with
  | error e => simp [h1, h2, h3, h4, h5] at h
  | ok v5 =>
  cases h6 : getStrListField fields "future_directions" with
  | error e => simp [h1, h2, h3, h4, h5, h6] at h
  | ok v6 =>
  cases h7 : getStrField fields "classification" with
  | error e => simp [h1, h2, h3, h4, h5, h6, h7] at h
  | ok v7 =>
      intro k hk
      simp only [insightsKeys, List.mem_cons, List.not_mem_nil, or_false] at hk
      rcases hk with rfl | rfl | rfl | rfl | rfl | rfl | rfl
      · exact getStrField_ok_isSome _ _ _ h1
      · exact getStrField_ok_isSome _ _ _ h2
      · exact getStrField_ok_isSome _ _ _ h3
      · exact getStrListField_ok_isSome _ _ _ h4
      · exact getStrListField_ok_isSome _ _ _ h5
      · exact getStrListField_ok_isSome _ _ _ h6
      · exact getStrField_ok_isSome _ _ _ h7

/-- C6: a response whose extracted payload is malformed JSON parses to the
single wrapping error, and a payload that is valid JSON but misses any of
the seven keys also parses to an error — never to a partial or default
Insights value. -/
theorem c6_parse_all_or_nothing (response : String) :
    (jsonParse (extractJsonStr response.data) = none →
      parseResponse response = .error .malformedJson) ∧
    (∀ fields k,
      jsonParse (extractJsonStr response.data) = some (.obj fields) →
      k ∈ insightsKeys → dictGet fields k = none →
      ∃ e, parseResponse response = .error e) := by
  constructor
  · intro h
    simp [parseResponse, h]
  · intro fields k hjson hk hmiss
    cases hb : buildInsights fields with
    | error e => exact ⟨e, by simp [parseResponse, hjson, hb]⟩
    | ok i =>
        have hs := buildInsights_ok_keys fields i hb k hk
        rw [hmiss] at hs
        simp at hs

/-- C6 witness: a prose response errors as malformed JSON; a valid JSON
object missing the "method" key errors. -/
theorem c6_witness :
    parseResponse proseResponse = .error .malformedJson ∧
    ∃ e, parseResponse missingKeyResponse = .error e :=
  ⟨(c6_parse_all_or_nothing proseResponse).1 rfl,
   (c6_parse_all_or_nothing missingKeyResponse).2
      [("problem", .str "p")] "method" rfl (by decide) rfl⟩

/-! Substring containment helpers (C5, C7). -/

theorem findSub_pos (hay needle : List Char)
    (h : needle.isPrefixOf hay = true) : findSub hay needle = some 0 := by
  unfold findSub
  rw [h]
  rfl

theorem findSub_cons_neg (c : Char) (rest needle : List Char)
    (h : needle.isPrefixOf (c :: rest) = false) :
    findSub (c :: rest) needle = (findSub rest needle).map (· + 1) := by
  have hstep : findSub (c :: rest) needle =
      if needle.isPrefixOf (c :: rest) = true then some 0
      else (findSub rest needle).map (· + 1) := rfl
  rw [hstep, h]
  simp

theorem containsSub_cons (c : Char) (hay needle : List Char)
    (h : containsSub hay needle = true) :
    containsSub (c :: hay) needle = true := by
  unfold containsSub at h ⊢
  cases hp : needle.isPrefixOf (c :: hay) with
  | true => rw [findSub_pos _ _ hp]; rfl
  | false =>
      rw [findSub_cons_neg _ _ _ hp]
      cases hf : findSub hay needle with
      | none => rw [hf] at h; simp at h
      | some j => simp [hf]

theorem containsSub_infix (pre m suf : List Char) :
    containsSub (pre ++ (m ++ suf)) m = true := by
  induction pre with
  | nil =>
      have hp : m.isPrefixOf (m ++ suf) = true := by
        simp [List.isPrefixOf_iff_prefix]
      simp only [List.nil_append]
      unfold containsSub
      rw [findSub_pos _ _ hp]
      rfl
  | cons c t ih => exact containsSub_cons c _ _ ih

/-! Prompt construction (C7). -/

theorem string_mk_length (l : List Char) : (String.mk l).length = l.length :=
  rfl

/-- The `text.length ≤ 8000` shape of the prompt: the untruncated text is
embedded, no marker appended. -/
theorem buildPrompt_short (title text : String) (h : text.length ≤ 8000) :
    buildExtractionPrompt title text =
      promptPart1 ++ title ++ promptPart2 ++ text ++ promptPart3 := by
  have hnot : ¬(text.length > 8000) := by omega
  have htake : text.data.take 8000 = text.data :=
    List.take_of_length_le (by exact h)
  simp only [buildExtractionPrompt, hnot, if_false, htake]

/-- The `8000 < text.length` shape: the first 8000 characters plus the
marker are embedded. -/
theorem buildPrompt_long (title text : String) (h : 8000 < text.length) :
    buildExtractionPrompt title text =
      promptPart1 ++ title ++ promptPart2 ++
        (String.mk (text.data.take 8000) ++ truncMarker) ++ promptPart3 := by
  simp only [buildExtractionPrompt, if_pos h]

/-- C7 (amended): the prompt embeds exactly the first
min(len(fullText), 8000) characters of fullText; the literal truncation
marker is appended to the embedded text if and only if fullText exceeds
8000 characters (and is then contained in the prompt); consequently for a
text of length 10000 the prompt's total length is strictly less than 10000
plus the template's fixed overhead. -/
theorem c7_prompt_truncation (title text : String) :
    (text.length ≤ 8000 →
      buildExtractionPrompt title text =
        promptPart1 ++ title ++ promptPart2 ++ text ++ promptPart3) ∧
    (8000 < text.length →
      buildExtractionPrompt title text =
        promptPart1 ++ title ++ promptPart2 ++
          (String.mk (text.data.take 8000) ++ truncMarker) ++ promptPart3 ∧
      containsSub (buildExtractionPrompt title text).data truncMarker.data =
        true) ∧
    (text.length = 10000 →
      (buildExtractionPrompt title text).length <
        10000 + (promptPart1.length + title.length + promptPart2.length +
          promptPart3.length)) := by
  refine ⟨buildPrompt_short title text, fun h => ⟨buildPrompt_long title text h, ?_⟩,
    fun h => ?_⟩
  · have hd := congrArg String.data (buildPrompt_long title text h)
    rw [hd]
    simp only [String.data_append, string_mk_data]
    have hshape :
        promptPart1.data ++ title.data ++ promptPart2.data ++
            (text.data.take 8000 ++ truncMarker.data) ++ promptPart3.data =
          (promptPart1.data ++ title.data ++ promptPart2.data ++
            text.data.take 8000) ++
            (truncMarker.data ++ promptPart3.data) := by
      simp [List.append_assoc]
    rw [hshape]
    exact containsSub_infix _ _ _
  · have h8 : 8000 < text.length := by omega
    have hdl : text.data.length = 10000 := h
    have hm : truncMarker.length = 26 := rfl
    rw [buildPrompt_long title text h8]
    simp only [String.length_append, string_mk_length, List.length_take, hdl]
    omega

/-- C7 counterexample: with the marker itself as title and an empty text,
nothing is truncated (length 0 is not greater than 8000), yet the prompt
contains the literal truncation marker — the containment-iff of the claim
fails as stated. -/
theorem c7_counterexample :
    containsSub (buildExtractionPrompt truncMarker "").data truncMarker.data
      = true ∧ ¬(("" : String).length > 8000) := by
  constructor
  · have heq : (buildExtractionPrompt truncMarker "").data =
        promptPart1.data ++ (truncMarker.data ++
          (promptPart2.data ++ ("".data ++ promptPart3.data))) := by
      have hshort := buildPrompt_short truncMarker "" (by decide)
      rw [hshort]
      simp [String.data_append, List.append_assoc]
    rw [heq]
    exact containsSub_infix _ _ _
  · decide

/-- C7 witness: a length-10000 text is truncated — the marker is appended —
and the prompt stays strictly below 10000 plus the fixed overhead. -/
theorem c7_witness :
    containsSub
      (buildExtractionPrompt "T" (String.mk (List.replicate 10000 'x'))).data
      truncMarker.data = true ∧
    (buildExtractionPrompt "T" (String.mk (List.replicate 10000 'x'))).length <
      10000 + (promptPart1.length + ("T" : String).length +
        promptPart2.length + promptPart3.length) := by
  have hlen : (String.mk (List.replicate 10000 'x')).length = 10000 := by
    rw [string_mk_length, List.length_replicate]
  have h := c7_prompt_truncation "T" (String.mk (List.replicate 10000 'x'))
  exact ⟨(h.2.1 (by omega)).2, h.2.2 hlen⟩

/-! Classification pass-through (C9). -/

set_option maxRecDepth 40000 in
/-- C9: response parsing does not validate classification against the
two-value enum: this well-formed seven-key response carries the third
value "exploratory", parsing succeeds, and the value is passed through
unchanged. -/
theorem c9_classification_passthrough :
    parseResponse thirdClassResponse = .ok thirdClassInsights ∧
    thirdClassInsights.classification = "exploratory" ∧
    thirdClassInsights.classification ≠ "foundational" ∧
    thirdClassInsights.classification ≠ "incremental" :=
  ⟨rfl, rfl, by decide, by decide⟩


/-! Fence extraction (C5). -/

theorem fenceMark_eq : fenceMark = btChar :: btChar :: btChar :: [] := rfl

theorem fenceJson_eq :
    fenceJson = btChar :: btChar :: btChar :: 'j' :: 's' :: 'o' :: 'n' :: [] :=
  rfl

theorem findSub_none_head (c : Char) (t : List Char) (hay : List Char)
    (hc : c ∉ hay) : findSub hay (c :: t) = none := by
  induction hay with
  | nil => rfl
  | cons b hay' ih =>
      simp only [List.mem_cons, not_or] at hc
      have hcb : (c == b) = false := by
        cases hx : c == b with
        | false => rfl
        | true => exact absurd (eq_of_beq hx) hc.1
      have hpre : (c :: t).isPrefixOf (b :: hay') = false := by
        simp [List.isPrefixOf, hcb]
      rw [findSub_cons_neg _ _ _ hpre, ih hc.2]
      rfl

/-- A needle that is not a prefix of `s`, shares no character with the
backtick, and `s` backtick-free: appending a backtick-headed tail cannot
make it a prefix. -/
theorem isPrefixOf_append_bt (needle : List Char) :
    ∀ (s post : List Char), needle.isPrefixOf s = false → btChar ∉ needle →
      btChar ∉ s → needle.isPrefixOf (s ++ btChar :: post) = false := by
  induction needle with
  | nil => intro s post h _ _; simp [List.isPrefixOf] at h
  | cons n nt ih =>
      intro s post h hn hs
      simp only [List.mem_cons, not_or] at hn
      cases s with
      | nil =>
          have hnb : (n == btChar) = false := by
            cases hx : n == btChar with
            | false => rfl
            | true => exact absurd (eq_of_beq hx).symm hn.1
          simp [List.isPrefixOf, hnb]
      | cons b s' =>
          simp only [List.mem_cons, not_or] at hs
          simp only [List.cons_append, List.isPrefixOf] at h ⊢
          cases hnb : (n == b) with
          | false => simp [hnb]
          | true =>
              rw [hnb] at h
              simp only [Bool.true_and] at h ⊢
              exact ih s' post h hn.2 hs.2

theorem findSub_close (s : List Char) (hbt : btChar ∉ s) :
    findSub (s ++ fenceMark) fenceMark = some s.length := by
  induction s with
  | nil => rfl
  | cons c s' ih =>
      simp only [List.mem_cons, not_or] at hbt
      have hcb : (btChar == c) = false := by
        cases hx : btChar == c with
        | false => rfl
        | true => exact absurd (eq_of_beq hx) hbt.1
      have hpre : fenceMark.isPrefixOf (c :: (s' ++ fenceMark)) = false := by
        rw [fenceMark_eq]
        simp [List.isPrefixOf, hcb]
      rw [show (c :: s') ++ fenceMark = c :: (s' ++ fenceMark) from rfl,
        findSub_cons_neg _ _ _ hpre, ih hbt.2]
      rfl

theorem findSub_tail_no_json (s : List Char) (hbt : btChar ∉ s) :
    findSub (s ++ fenceMark) fenceJson = none := by
  induction s with
  | nil => rfl
  | cons c s' ih =>
      simp only [List.mem_cons, not_or] at hbt
      have hcb : (btChar == c) = false := by
        cases hx : btChar == c with
        | false => rfl
        | true => exact absurd (eq_of_beq hx) hbt.1
      have hpre : fenceJson.isPrefixOf (c :: (s' ++ fenceMark)) = false := by
        rw [fenceJson_eq]
        simp [List.isPrefixOf, hcb]
      rw [show (c :: s') ++ fenceMark = c :: (s' ++ fenceMark) from rfl,
        findSub_cons_neg _ _ _ hpre, ih hbt.2]
      rfl

theorem findSub_bare_no_json (s : List Char) (hbt : btChar ∉ s)
    (hjson : ("json".data.isPrefixOf s) = false) :
    findSub (fenceMark ++ (s ++ fenceMark)) fenceJson = none := by
  cases s with
  | nil => rfl
  | cons c s' =>
      have hbt' := hbt
      simp only [List.mem_cons, not_or] at hbt'
      have hcb : (btChar == c) = false := by
        cases hx : btChar == c with
        | false => rfl
        | true => exact absurd (eq_of_beq hx) hbt'.1
      have hp0 : fenceJson.isPrefixOf
          (btChar :: btChar :: btChar :: ((c :: s') ++ fenceMark)) = false := by
        rw [fenceJson_eq]
        simp only [List.isPrefixOf, beq_self_eq_true, Bool.true_and]
        exact isPrefixOf_append_bt "json".data (c :: s')
          (btChar :: btChar :: []) hjson (by decide) hbt
      have hp1 : fenceJson.isPrefixOf
          (btChar :: btChar :: ((c :: s') ++ fenceMark)) = false := by
        rw [fenceJson_eq]
        simp [List.isPrefixOf, hcb]
      have hp2 : fenceJson.isPrefixOf
          (btChar :: ((c :: s') ++ fenceMark)) = false := by
        rw [fenceJson_eq]
        simp [List.isPrefixOf, hcb]
      rw [show fenceMark ++ ((c :: s') ++ fenceMark) =
          btChar :: btChar :: btChar :: ((c :: s') ++ fenceMark) from rfl]
      rw [findSub_cons_neg _ _ _ hp0, findSub_cons_neg _ _ _ hp1,
        findSub_cons_neg _ _ _ hp2, findSub_tail_no_json _ hbt]
      rfl

theorem pyFindFrom_eq (hay needle : List Char) (start j : Nat)
    (h : findSub (hay.drop start) needle = some j) :
    pyFindFrom hay needle start = ((start + j : Nat) : Int) := by
  unfold pyFindFrom
  rw [h]

theorem pySlice_middle (pre mid post : List Char) :
    pySlice (pre ++ (mid ++ post)) pre.length
      ((pre.length + mid.length : Nat) : Int) = mid := by
  simp only [pySlice]
  have h1 : ¬(((pre.length + mid.length : Nat) : Int) < 0) := by omega
  rw [if_neg h1, if_neg h1]
  simp only [Int.toNat_ofNat]
  have hmin : min (pre.length + mid.length) (pre ++ (mid ++ post)).length =
      pre.length + mid.length := by
    simp only [List.length_append]
    omega
  rw [hmin, List.take_append, List.take_left, List.drop_left]

theorem extractJsonStr_found_json (response : List Char) (i : Nat)
    (h : findSub response fenceJson = some i) :
    extractJsonStr response =
      pyStrip (pySlice response (i + 7)
        (pyFindFrom response fenceMark (i + 7))) := by
  unfold extractJsonStr
  rw [h]

theorem extractJsonStr_found_bare (response : List Char) (i : Nat)
    (h1 : findSub response fenceJson = none)
    (h2 : findSub response fenceMark = some i) :
    extractJsonStr response =
      pyStrip (pySlice response (i + 3)
        (pyFindFrom response fenceMark (i + 3))) := by
  unfold extractJsonStr
  rw [h1, h2]

theorem extractJsonStr_no_fence (s : List Char) (hbt : btChar ∉ s) :
    extractJsonStr s = pyStrip s := by
  have h1 : findSub s fenceJson = none := by
    rw [fenceJson_eq]
    exact findSub_none_head btChar _ s hbt
  have h2 : findSub s fenceMark = none := by
    rw [fenceMark_eq]
    exact findSub_none_head btChar _ s hbt
  unfold extractJsonStr
  rw [h1, h2]

theorem extractJsonStr_json_fence (s : List Char) (hbt : btChar ∉ s) :
    extractJsonStr (fenceJson ++ (s ++ fenceMark)) = pyStrip s := by
  have h0 : findSub (fenceJson ++ (s ++ fenceMark)) fenceJson = some 0 :=
    findSub_pos _ _ (by simp [List.isPrefixOf_iff_prefix])
  rw [extractJsonStr_found_json _ _ h0]
  have hdrop : (fenceJson ++ (s ++ fenceMark)).drop (0 + 7) = s ++ fenceMark :=
    List.drop_left' rfl
  rw [pyFindFrom_eq _ _ _ _ (by rw [hdrop]; exact findSub_close s hbt)]
  congr 1
  have hsl := pySlice_middle fenceJson s fenceMark
  have h7 : fenceJson.length = 7 := rfl
  rw [h7] at hsl
  simpa using hsl

theorem extractJsonStr_bare_fence (s : List Char) (hbt : btChar ∉ s)
    (hjson : ("json".data.isPrefixOf s) = false) :
    extractJsonStr (fenceMark ++ (s ++ fenceMark)) = pyStrip s := by
  have h1 : findSub (fenceMark ++ (s ++ fenceMark)) fenceJson = none :=
    findSub_bare_no_json s hbt hjson
  have h0 : findSub (fenceMark ++ (s ++ fenceMark)) fenceMark = some 0 :=
    findSub_pos _ _ (by simp [List.isPrefixOf_iff_prefix])
  rw [extractJsonStr_found_bare _ _ h1 h0]
  have hdrop : (fenceMark ++ (s ++ fenceMark)).drop (0 + 3) = s ++ fenceMark :=
    List.drop_left' rfl
  rw [pyFindFrom_eq _ _ _ _ (by rw [hdrop]; exact findSub_close s hbt)]
  congr 1
  have hsl := pySlice_middle fenceMark s fenceMark
  have h3 : fenceMark.length = 3 := rfl
  rw [h3] at hsl
  simpa using hsl

theorem parseResponse_congr (r1 r2 : String)
    (h : extractJsonStr r1.data = extractJsonStr r2.data) :
    parseResponse r1 = parseResponse r2 := by
  unfold parseResponse
  rw [h]

/-- C5: for a payload free of backticks and not beginning with "json", the
payload wrapped in a JSON-labeled fence with closing fence, wrapped in a
bare fence with closing fence, and bare, all parse identically (the three
extraction strategies are tried in that priority order, first match wins);
so when the payload parses to insights i, all three shapes yield i. -/
theorem c5_fence_shapes_equal (s : String) (i : PaperInsights)
    (hbt : btChar ∉ s.data)
    (hjson : ("json".data.isPrefixOf s.data) = false)
    (hok : parseResponse s = .ok i) :
    parseResponse ("```json" ++ s ++ "```") = .ok i ∧
    parseResponse ("```" ++ s ++ "```") = .ok i := by
  have hnof : extractJsonStr s.data = pyStrip s.data :=
    extractJsonStr_no_fence s.data hbt
  have hd1 : ("```json" ++ s ++ "```").data =
      fenceJson ++ (s.data ++ fenceMark) := by
    simp [fenceJson, fenceMark, List.append_assoc]
  have hd2 : ("```" ++ s ++ "```").data =
      fenceMark ++ (s.data ++ fenceMark) := by
    simp [fenceMark, List.append_assoc]
  constructor
  · rw [← hok]
    apply parseResponse_congr
    rw [hd1, extractJsonStr_json_fence s.data hbt, hnof]
  · rw [← hok]
    apply parseResponse_congr
    rw [hd2, extractJsonStr_bare_fence s.data hbt hjson, hnof]

set_option maxRecDepth 40000 in
/-- C5 witness: a concrete seven-key payload parses to the same insights
value in all three shapes. -/
theorem c5_witness :
    parseResponse samplePayload = .ok samplePayloadInsights ∧
    parseResponse ("```json" ++ samplePayload ++ "```") =
      .ok samplePayloadInsights ∧
    parseResponse ("```" ++ samplePayload ++ "```") =
      .ok samplePayloadInsights := by
  have h := c5_fence_shapes_equal samplePayload samplePayloadInsights
    (by decide) (by decide) rfl
  exact ⟨rfl, h.1, h.2⟩

end PaperReader
